import Mathlib

/-! # cloud-machine: default resolution, node expansion and the instance lifecycle

A shallow embedding of `cluster-up.go` (`main`: the block that sets the cluster
defaults on a machine, and the loop that expands a cluster into its nodes) and of
`instance/instance.go` (`mergeInstances`, `WaitUntilState`, `Get`, `Load`,
`Create`).

Conventions of the embedding.

* A Go `*Instance` that a function mutates in place is passed in and handed back
  (`Step.inst`), together with the list of events performed so far (`Step.trace`).
* The EC2 client `*ec2.EC2` is a record of three functions; each receives the
  events performed before the call, so that an answer may depend on the whole
  history of the run (a provider that reports "pending" first and "running" later).
* `time.Sleep` is recorded as an event; writes to the logger are not modelled.
* The `for` loop of `WaitUntilState` has no bound in the source; the embedding
  counts its iterations with a fuel argument and reports `Exit.spin` when the fuel
  is used up while the loop would go on.
* The node loop of `main` is embedded twice. `runNodes` is the loop as it runs:
  it calls `machine.Get` on every request, ends in a panic at the first error,
  and its counter is a 64-bit Go `int` that wraps (`wrapInt`). `nodeLoop` is the
  list of the requests that the loop body builds for the counter values up to
  `Nodes`; `runNodes_handed_nodeRequests` relates the two.
-/

set_option linter.dupNamespace false

namespace CloudMachine

/-! ## The types of the `ec2` library that the program touches -/

namespace ec2

/-- The `ec2.InstanceState` of an instance: numeric code and name. -/
structure InstanceState where
  Code : Int
  Name : String
  deriving DecidableEq, Repr, Inhabited

/-- The `ec2.Tag`: a key and a value. -/
structure Tag where
  Key : String
  Value : String
  deriving DecidableEq, Repr, Inhabited

/-- The `ec2.SecurityGroup`: identifier and name. -/
structure SecurityGroup where
  Id : String
  Name : String
  deriving DecidableEq, Repr, Inhabited

/-- The `ec2.Instance` as far as the program reads it: the fields that
`mergeInstances`, `WaitUntilState` and `main` use, and the addresses. -/
structure Instance where
  InstanceId : String
  InstanceType : String
  ImageId : String
  PrivateDNSName : String
  DNSName : String
  IPAddress : String
  PrivateIPAddress : String
  SubnetId : String
  VPCId : String
  KeyName : String
  AvailZone : String
  PlacementGroupName : String
  EBSOptimized : Bool
  State : InstanceState
  Tags : List Tag
  SecurityGroups : List SecurityGroup
  deriving DecidableEq, Repr, Inhabited

/-- The `ec2.RunInstances` options that `Create` fills in. -/
structure RunInstances where
  ImageId : String
  InstanceType : String
  KeyName : String
  SecurityGroups : List SecurityGroup
  SubnetId : String
  EBSOptimized : Bool
  DisableAPITermination : Bool
  UserData : List UInt8
  ShutdownBehavior : String
  PlacementGroupName : String
  deriving DecidableEq, Repr, Inhabited

/-- One `ec2.Reservation` of an `Instances` answer. -/
structure Reservation where
  Instances : List Instance
  deriving DecidableEq, Repr, Inhabited

/-- The `ec2.InstancesResp`: answer to a fetch by identifier. -/
structure InstancesResp where
  Reservations : List Reservation
  deriving DecidableEq, Repr, Inhabited

/-- The `ec2.RunInstancesResp`: answer to a creation request. -/
structure RunInstancesResp where
  Instances : List Instance
  deriving DecidableEq, Repr, Inhabited

end ec2

/-! ## The data model of the repository -/

/-- The `instance.Instance` record (`instance/instance.go`, lines 25-41); the
embedded `ec2.Instance` is the field `Instance`; the field `Type` is written
`Typ`, `Type` being reserved. -/
structure Instance where
  Id : String
  Name : String
  Typ : String
  ImageId : String
  Region : String
  KeyName : String
  SecurityGroups : List String
  SubnetId : String
  DefaultAvailableZone : String
  CloudConfig : String
  EBSOptimized : Bool
  ShutdownBehavior : String
  EnableAPITermination : Bool
  PlacementGroupName : String
  Instance : ec2.Instance
  deriving DecidableEq, Repr, Inhabited

/-- Modelled from the spec: the `volume.Volume` type, whose declaration is not
among the sources; `main` reads and writes only `Name`, the size and type
attributes are carried along untouched. -/
structure Volume where
  Name : String
  Size : Int
  Typ : String
  deriving DecidableEq, Repr, Inhabited

/-- Modelled from the spec: the `machine.Machine` type, whose declaration is not
among the sources; `main` uses its fields `Instance` and `Volumes`. -/
structure Machine where
  Instance : Instance
  Volumes : List Volume
  deriving DecidableEq, Repr, Inhabited

/-- The `Default` struct of `cluster-up.go` (lines 29-36). -/
structure Default where
  ImageId : String
  Region : String
  KeyName : String
  SecurityGroups : List String
  SubnetId : String
  DefaultAvailableZone : String
  deriving DecidableEq, Repr, Inhabited

/-- The `Cluster` struct of `cluster-up.go` (lines 24-27). -/
structure Cluster where
  Machine : Machine
  Nodes : Int
  deriving DecidableEq, Repr, Inhabited

/-! ## `main`: cluster defaults (lines 83-101) -/

/-- The block "Set default values of cluster to machine" of `main`: six
assignments, each guarded by a test of the machine's own field for the zero
value. -/
def setDefaults (myMachine : Machine) (dflt : Default) : Machine :=
  let inst := myMachine.Instance
  let inst := if inst.ImageId = "" then { inst with ImageId := dflt.ImageId } else inst
  let inst := if inst.Region = "" then { inst with Region := dflt.Region } else inst
  let inst := if inst.KeyName = "" then { inst with KeyName := dflt.KeyName } else inst
  let inst := if inst.SecurityGroups.length = 0 then
    { inst with SecurityGroups := dflt.SecurityGroups } else inst
  let inst := if inst.SubnetId = "" then { inst with SubnetId := dflt.SubnetId } else inst
  let inst := if inst.DefaultAvailableZone = "" then
    { inst with DefaultAvailableZone := dflt.DefaultAvailableZone } else inst
  { myMachine with Instance := inst }

/-! ## `main`: node expansion (lines 113-133) -/

/-- The text `fmt.Sprintf("-%d", i)`: a dash and the decimal numeral of `i`. -/
def sprintfDashD (i : Int) : String :=
  "-" ++ toString i

/-- A Go loop `for key, x := range src { dest[key] = f x }` over a destination
slice `dest` allocated beforehand: element `key` of `dest` is overwritten with
`f` of element `key` of `src`. -/
def rangeAssign {α β : Type} (f : α → β) : List α → Nat → List β → List β
  | [], _, dest => dest
  | x :: rest, key, dest => rangeAssign f rest (key + 1) (dest.set key (f x))

/-- The body of the node loop up to the call of `machine.Get` (lines 117-130):
the request built for node `i` from the cluster's machine. -/
def expandNode (template : Machine) (i : Int) : Machine :=
  let myMachine := template
  let myMachine : Machine :=
    { myMachine with Volumes := List.replicate myMachine.Volumes.length default }
  let myMachine : Machine :=
    { myMachine with
      Instance := { myMachine.Instance with
        Name := myMachine.Instance.Name ++ sprintfDashD i } }
  { myMachine with
    Volumes := rangeAssign (fun referenceVolume : Volume =>
        { referenceVolume with Name := referenceVolume.Name ++ sprintfDashD i })
      template.Volumes 0 myMachine.Volumes }

/-- The requests that the body of the node loop builds for the counter values
`i, i + 1, ..` up to `myCluster.Nodes` (line 116), in order: what is handed to
`machine.Get` by a run in which no call fails and the counter does not wrap.
The first argument bounds the iterations; `nodeRequests` supplies enough. The
loop as it runs, with the call of `machine.Get`, the panic on its error and the
64-bit counter, is `runNodes`. -/
def nodeLoop (myCluster : Cluster) : Nat → Int → List Machine
  | 0, _ => []
  | fuel + 1, i =>
    if i ≤ myCluster.Nodes then
      expandNode myCluster.Machine i :: nodeLoop myCluster fuel (i + 1)
    else []

/-- The requests of one cluster: those built from `i := 1` on. There are
`Nodes` of them (none when `Nodes` is not positive), so that much fuel reaches
the last one. -/
def nodeRequests (myCluster : Cluster) : List Machine :=
  nodeLoop myCluster myCluster.Nodes.toNat 1

/-! ## `instance.go`: events, the EC2 client and the outcome of a call -/

/-- What a run does to the outside world, in the order it does it. -/
inductive Event where
  /-- The call `ec2Ref.Instances(instIds, nil)`: fetch by identifier. -/
  | Instances (instIds : List String)
  /-- The call `ec2Ref.RunInstances(&options)`: the creation request. -/
  | RunInstances (options : ec2.RunInstances)
  /-- The call `ec2Ref.CreateTags(instIds, tags)`: the tagging call. -/
  | CreateTags (instIds : List String) (tags : List ec2.Tag)
  /-- The call `time.Sleep(seconds * time.Second)`. -/
  | Sleep (seconds : Nat)
  deriving DecidableEq, Repr

/-- The client `*ec2.EC2`: the three remote calls of the creation path. Each
takes the events performed before it and answers with a response or an error. -/
structure EC2 where
  Instances : List Event → List String → Except String ec2.InstancesResp
  RunInstances : List Event → ec2.RunInstances → Except String ec2.RunInstancesResp
  CreateTags : List Event → List String → List ec2.Tag → Except String Unit

/-- The local files and the `text/template` engine that `Create` uses for the
cloud-config: `ReadFile` is `ioutil.ReadFile`, `ExecuteTemplate` parses the text
as a template and executes it on the record. -/
structure Files where
  ReadFile : String → Except String String
  ExecuteTemplate : String → Instance → Except String (List UInt8)

/-- How a call ends: it returns, it panics, or its polling loop is still going
when the fuel of the embedding is used up. -/
inductive Exit (α : Type) where
  | ret (value : α)
  | panic (msg : String)
  | spin
  deriving DecidableEq, Repr

/-- The result of a call on a record: how it ended, the record as the call left
it, and the events performed up to that point. -/
structure Step (α : Type) where
  val : α
  inst : Instance
  trace : List Event
  deriving DecidableEq, Repr

/-! ## `main`: the node loop as it runs (lines 116-141) -/

/-- The value of a Go `int` (64 bits, two's complement) after an addition whose
exact result is `x`. -/
def wrapInt (x : Int) : Int :=
  (x + 9223372036854775808) % 18446744073709551616 - 9223372036854775808

/-- The state of the node loop when it stops: the requests handed to
`machine.Get` so far, in order, and how the loop ended (`Exit.ret`: the loop
condition failed; `Exit.panic`: a call of `machine.Get` returned an error;
`Exit.spin`: the fuel of the embedding is used up). -/
structure NodeRun where
  handed : List Machine
  exit : Exit Unit
  deriving DecidableEq, Repr

/-- The node loop `for i := 1; i <= myCluster.Nodes; i++` (lines 116-141) from
counter value `i` on: build the request, hand it to `machine.Get`, panic when
that returns an error, else increment the counter. The function `machine.Get`
is not among the sources; it is the parameter `machineGet`, which receives the
requests handed over before and the present one and answers with the error or
with `nil`. The first argument bounds the iterations. -/
def runNodes (machineGet : List Machine → Machine → Except String Unit) (myCluster : Cluster) :
    Nat → Int → List Machine → NodeRun
  | 0, i, handed =>
    if i ≤ myCluster.Nodes then ⟨handed, .spin⟩ else ⟨handed, .ret ()⟩
  | fuel + 1, i, handed =>
    if i ≤ myCluster.Nodes then
      let myMachine := expandNode myCluster.Machine i
      match machineGet handed myMachine with
      | .error err => ⟨handed ++ [myMachine], .panic err⟩
      | .ok _ => runNodes machineGet myCluster fuel (wrapInt (i + 1)) (handed ++ [myMachine])
    else ⟨handed, .ret ()⟩

/-! ## `mergeInstances` (lines 43-66) -/

/-- The loop over `instanceRef.Tags` of `mergeInstances` (lines 60-65): the
value of the tag at which the loop breaks, or the name it started with. -/
def nameFromTags : List ec2.Tag → String → String
  | [], name => name
  | tag :: rest, name => if tag.Key = "Name" then tag.Value else nameFromTags rest name

/-- The function `mergeInstances`: the record after merging the snapshot
`instanceRef` into it. -/
def mergeInstances (inst : Instance) (instanceRef : ec2.Instance) : Instance :=
  let inst := { inst with Instance := instanceRef }
  let inst := { inst with Id := instanceRef.InstanceId }
  let inst := { inst with Typ := instanceRef.InstanceType }
  let inst := { inst with ImageId := instanceRef.ImageId }
  let inst := { inst with SubnetId := instanceRef.SubnetId }
  let inst := { inst with KeyName := instanceRef.KeyName }
  let inst := { inst with DefaultAvailableZone := instanceRef.AvailZone }
  let inst := { inst with EBSOptimized := instanceRef.EBSOptimized }
  let inst :=
    { inst with SecurityGroups := List.replicate instanceRef.SecurityGroups.length "" }
  let inst :=
    { inst with
      SecurityGroups := rangeAssign (fun securityGroup : ec2.SecurityGroup => securityGroup.Id)
        instanceRef.SecurityGroups 0 inst.SecurityGroups }
  { inst with Name := nameFromTags instanceRef.Tags inst.Name }

/-! ## `Load` (lines 127-143) -/

/-- The function `Load`: fetch the instance by the record's identifier and merge
the first instance of the first reservation into the record. -/
def Load (ec2Ref : EC2) (trace : List Event) (inst : Instance) :
    Step (Except String ec2.Instance) :=
  if inst.Id = "" then
    ⟨.error "To load a instance you need to pass its Id", inst, trace⟩
  else
    let trace1 := trace ++ [Event.Instances [inst.Id]]
    match ec2Ref.Instances trace [inst.Id] with
    | .error err => ⟨.error err, inst, trace1⟩
    | .ok resp =>
      match resp.Reservations with
      | [] =>
        ⟨.error ("Any instance was found with instance Id <" ++ inst.Id ++ ">"), inst, trace1⟩
      | reservation :: _ =>
        match reservation.Instances with
        | [] =>
          ⟨.error ("Any instance was found with instance Id <" ++ inst.Id ++ ">"), inst,
            trace1⟩
        | instanceRef :: _ => ⟨.ok instanceRef, mergeInstances inst instanceRef, trace1⟩

/-! ## `WaitUntilState` (lines 71-87) -/

/-- The function `WaitUntilState`: while the record's state name differs from
`state`, sleep two seconds and `Load`; return the error of a failed `Load`, or
`nil` once the names agree. The first argument bounds the iterations. -/
def WaitUntilState (ec2Ref : EC2) : Nat → List Event → Instance → String →
    Step (Exit (Except String Unit))
  | 0, trace, inst, _ => ⟨.spin, inst, trace⟩
  | fuel + 1, trace, inst, state =>
    if inst.Instance.State.Name ≠ state then
      let r := Load ec2Ref (trace ++ [Event.Sleep 2]) inst
      match r.val with
      | .error err => ⟨.ret (.error err), r.inst, r.trace⟩
      | .ok _ => WaitUntilState ec2Ref fuel r.trace r.inst state
    else ⟨.ret (.ok ()), inst, trace⟩

/-! ## `Create` (lines 148-208) -/

/-- The cloud-config block of `Create` (lines 159-173): with a cloud-config path
set, the rendered template becomes the user data; a file that cannot be read
or a template that fails is a panic, reported here as `Except.error`. -/
def cloudConfigUserData (fs : Files) (inst : Instance) (options : ec2.RunInstances) :
    Except String ec2.RunInstances :=
  if inst.CloudConfig ≠ "" then
    match fs.ReadFile inst.CloudConfig with
    | .error err => .error err
    | .ok cloudConfigTemplate =>
      match fs.ExecuteTemplate cloudConfigTemplate inst with
      | .error err => .error err
      | .ok cloudConfig => .ok { options with UserData := cloudConfig }
  else .ok options

/-- The options of the creation request as `Create` builds them (lines 149-185),
or the message of the panic of the cloud-config block. -/
def runOptions (fs : Files) (inst : Instance) : Except String ec2.RunInstances :=
  let options : ec2.RunInstances :=
    { ImageId := inst.ImageId
      InstanceType := inst.Typ
      KeyName := inst.KeyName
      SecurityGroups := List.replicate inst.SecurityGroups.length default
      SubnetId := inst.SubnetId
      EBSOptimized := inst.EBSOptimized
      DisableAPITermination := !inst.EnableAPITermination
      UserData := []
      ShutdownBehavior := ""
      PlacementGroupName := "" }
  match cloudConfigUserData fs inst options with
  | .error msg => .error msg
  | .ok options =>
    let options := if inst.ShutdownBehavior ≠ "" then
      { options with ShutdownBehavior := inst.ShutdownBehavior } else options
    let options := if inst.PlacementGroupName ≠ "" then
      { options with PlacementGroupName := inst.PlacementGroupName } else options
    .ok { options with
      SecurityGroups := rangeAssign
        (fun securityGroup : String => ({ Id := securityGroup, Name := "" } : ec2.SecurityGroup))
        inst.SecurityGroups 0 options.SecurityGroups }

/-- The function `Create`: build the options, submit the creation request, tag
the first returned instance with the record's name, merge it into the record,
wait until the record's state is "running", and return that first instance. -/
def Create (ec2Ref : EC2) (fs : Files) (fuel : Nat) (trace : List Event) (inst : Instance) :
    Step (Exit (Except String ec2.Instance)) :=
  match runOptions fs inst with
  | .error msg => ⟨.panic msg, inst, trace⟩
  | .ok options =>
    let trace1 := trace ++ [Event.RunInstances options]
    match ec2Ref.RunInstances trace options with
    | .error err => ⟨.ret (.error err), inst, trace1⟩
    | .ok resp =>
      match resp.Instances with
      | [] => ⟨.ret (.error "Any instance was created!"), inst, trace1⟩
      | instanceRef :: _ =>
        let tags : List ec2.Tag := [{ Key := "Name", Value := inst.Name }]
        let trace2 := trace1 ++ [Event.CreateTags [instanceRef.InstanceId] tags]
        match ec2Ref.CreateTags trace1 [instanceRef.InstanceId] tags with
        | .error err => ⟨.ret (.error err), inst, trace2⟩
        | .ok _ =>
          let w := WaitUntilState ec2Ref fuel trace2 (mergeInstances inst instanceRef) "running"
          match w.val with
          | .ret (.error err) => ⟨.ret (.error err), w.inst, w.trace⟩
          | .ret (.ok _) => ⟨.ret (.ok instanceRef), w.inst, w.trace⟩
          | .panic msg => ⟨.panic msg, w.inst, w.trace⟩
          | .spin => ⟨.spin, w.inst, w.trace⟩

/-! ## `Get` (lines 92-122) -/

/-- The function `Get`: `Create` when the record's identifier is empty, `Load`
otherwise; the snapshot and the error of the chosen call are returned as they
are. -/
def Get (ec2Ref : EC2) (fs : Files) (fuel : Nat) (trace : List Event) (inst : Instance) :
    Step (Exit (Except String ec2.Instance)) :=
  if inst.Id = "" then
    Create ec2Ref fs fuel trace inst
  else
    let r := Load ec2Ref trace inst
    ⟨.ret r.val, r.inst, r.trace⟩

/-! ## Shapes of a trace -/

/-- The event is the two-second sleep of the polling loop. -/
def isSleep2 : Event → Bool
  | .Sleep seconds => seconds == 2
  | _ => false

/-- The event is a fetch of exactly one identifier. -/
def isFetch : Event → Bool
  | .Instances [_] => true
  | _ => false

/-- The event is a creation request. -/
def isRunInstances : Event → Bool
  | .RunInstances _ => true
  | _ => false

/-- The event is a tagging call. -/
def isCreateTags : Event → Bool
  | .CreateTags _ _ => true
  | _ => false

/-- The events of a polling loop: rounds of a two-second sleep followed by a
fetch of one identifier; the last round may stop after its sleep (a `Load` that
refuses an empty identifier fetches nothing). -/
def pollingShape : List Event → Bool
  | [] => true
  | [e] => isSleep2 e
  | e :: f :: rest => isSleep2 e && isFetch f && pollingShape rest

/-- The events of a run of `Create`: nothing (the cloud-config block panicked),
or the creation request alone, or the creation request, the tagging call of one
identifier and then the events of a polling loop. -/
def createShape : List Event → Bool
  | [] => true
  | [e] => isRunInstances e
  | e :: f :: polls => isRunInstances e && isCreateTags f && pollingShape polls

/-- The events of the polling rounds that start from the records `recs`, one
round for each record: the two-second sleep and then the fetch by the record's
identifier (no fetch for a record without identifier, which `Load` refuses). -/
def pollRounds : List Instance → List Event
  | [] => []
  | r :: rest =>
    if r.Id = "" then Event.Sleep 2 :: pollRounds rest
    else Event.Sleep 2 :: Event.Instances [r.Id] :: pollRounds rest

/-- The number that a list of decimal digit characters denotes. -/
def digitsValue (cs : List Char) : Nat :=
  cs.foldl (fun acc c => 10 * acc + (c.toNat - 48)) 0

/-! ## Concrete inputs -/

namespace Sample

/-- A snapshot in state "pending", as a creation call reports it. -/
def pending : ec2.Instance :=
  { (default : ec2.Instance) with InstanceId := "i-1", State := ⟨0, "pending"⟩ }

/-- The snapshot of the same instance once it runs. -/
def running : ec2.Instance :=
  { (default : ec2.Instance) with
    InstanceId := "i-1", State := ⟨16, "running"⟩, PrivateIPAddress := "10.0.0.7" }

/-- A second running instance. -/
def other : ec2.Instance :=
  { (default : ec2.Instance) with InstanceId := "i-2", State := ⟨16, "running"⟩ }

/-- A snapshot that carries two tags with key "Name" after another tag. -/
def tagged : ec2.Instance :=
  { running with Tags := [⟨"Env", "prod"⟩, ⟨"Name", "worker-7"⟩, ⟨"Name", "worker-8"⟩] }

/-- A provider that creates the instance in state "pending" and reports it
"running" when fetched. -/
def provider : EC2 :=
  { Instances := fun _ _ => .ok ⟨[⟨[running]⟩]⟩
    RunInstances := fun _ _ => .ok ⟨[pending]⟩
    CreateTags := fun _ _ _ => .ok () }

/-- A provider whose creation call succeeds with no instance. -/
def emptyProvider : EC2 :=
  { Instances := fun _ _ => .ok ⟨[]⟩
    RunInstances := fun _ _ => .ok ⟨[]⟩
    CreateTags := fun _ _ _ => .ok () }

/-- A provider that answers a fetch with two reservations, the first of two
instances. -/
def crowdedProvider : EC2 :=
  { Instances := fun _ _ => .ok ⟨[⟨[running, other]⟩, ⟨[other]⟩]⟩
    RunInstances := fun _ _ => .ok ⟨[pending]⟩
    CreateTags := fun _ _ _ => .ok () }

/-- No cloud-config file can be read. -/
def noFiles : Files :=
  { ReadFile := fun _ => .error "open: no such file or directory"
    ExecuteTemplate := fun _ _ => .error "template: cloudConfig" }

/-- A record that has no identifier yet. -/
def fresh : Instance :=
  { (default : Instance) with Name := "web-1", ImageId := "ami-1", SecurityGroups := ["sg-1"] }

/-- A record that carries the identifier of an instance. -/
def known : Instance :=
  { fresh with Id := "i-1" }

/-- A record whose embedded state is already "running". -/
def settled : Instance :=
  { known with Instance := running }

/-- A machine with two volumes, one of whose names ends in a dash and a digit. -/
def template : Machine :=
  { Instance := { (default : Instance) with Name := "web" }
    Volumes := [⟨"data", 10, "gp2"⟩, ⟨"data-1", 5, "gp2"⟩] }

/-- The same machine with an identifier set in its file. -/
def adopted : Machine :=
  { template with Instance := { template.Instance with Id := "i-abc" } }

/-- A `machine.Get` that fails on every request. -/
def failingGet : List Machine → Machine → Except String Unit :=
  fun _ _ => .error "RequestLimitExceeded"

/-- A `machine.Get` that succeeds on every request. -/
def steadyGet : List Machine → Machine → Except String Unit :=
  fun _ _ => .ok ()

/-- Cluster defaults. -/
def defaults : Default :=
  { ImageId := "ami-9", Region := "us-east-1", KeyName := "k1", SecurityGroups := ["sg-9"]
    SubnetId := "subnet-9", DefaultAvailableZone := "us-east-1a" }

end Sample

/-! ## Lemmas on decimal numerals -/

theorem digitChar_ne_dash (m : Nat) (h : m < 10) : Nat.digitChar m ≠ '-' := by
  interval_cases m <;> decide

theorem toDigitsCore_no_dash (fuel : Nat) :
    ∀ (n : Nat) (ds : List Char), (∀ c ∈ ds, c ≠ '-') →
      ∀ c ∈ Nat.toDigitsCore 10 fuel n ds, c ≠ '-' := by
  induction fuel with
  | zero => intro n ds h; simpa [Nat.toDigitsCore] using h
  | succ fuel ih =>
    intro n ds h
    have hd : ∀ c ∈ Nat.digitChar (n % 10) :: ds, c ≠ '-' := by
      intro c hc
      rcases List.mem_cons.mp hc with rfl | hc
      · exact digitChar_ne_dash _ (Nat.mod_lt _ (by decide))
      · exact h c hc
    simp only [Nat.toDigitsCore]
    split
    · exact hd
    · exact ih _ _ hd

theorem toDigitsCore_append (fuel : Nat) :
    ∀ (n : Nat) (ds : List Char),
      Nat.toDigitsCore 10 fuel n ds = Nat.toDigitsCore 10 fuel n [] ++ ds := by
  induction fuel with
  | zero => intro n ds; simp [Nat.toDigitsCore]
  | succ fuel ih =>
    intro n ds
    simp only [Nat.toDigitsCore]
    split
    · simp
    · rw [ih _ (_ :: ds), ih _ [_]]
      simp

theorem digitChar_value (k : Nat) (hk : k < 10) : (Nat.digitChar k).toNat - 48 = k := by
  interval_cases k <;> rfl

theorem digitsValue_toDigitsCore (fuel : Nat) :
    ∀ n : Nat, n < fuel → digitsValue (Nat.toDigitsCore 10 fuel n []) = n := by
  induction fuel with
  | zero => intro n h; omega
  | succ fuel ih =>
    intro n h
    simp only [Nat.toDigitsCore]
    split
    · rename_i h0
      have : n < 10 := by omega
      simp [digitsValue, digitChar_value n this, Nat.mod_eq_of_lt this]
    · rename_i h0
      rw [toDigitsCore_append]
      have hlt : n / 10 < fuel := by omega
      have := ih (n / 10) hlt
      simp only [digitsValue] at this ⊢
      rw [List.foldl_append, this]
      simp only [List.foldl_cons, List.foldl_nil]
      rw [digitChar_value _ (Nat.mod_lt _ (by decide))]
      omega

theorem natToString_injective (m n : Nat) (h : toString m = toString n) : m = n := by
  have h1 : (Nat.toDigits 10 m) = (Nat.toDigits 10 n) := by
    have := congrArg String.data h
    simpa [toString, Nat.repr, List.asString] using this
  have hm := digitsValue_toDigitsCore (m + 1) m (by omega)
  have hn := digitsValue_toDigitsCore (n + 1) n (by omega)
  simp only [Nat.toDigits] at h1
  rw [h1] at hm
  omega

theorem natToString_no_dash (n : Nat) : ∀ c ∈ (toString n).data, c ≠ '-' := by
  have : (toString n).data = Nat.toDigitsCore 10 (n + 1) n [] := by
    simp [toString, Nat.repr, List.asString, Nat.toDigits]
  rw [this]
  exact toDigitsCore_no_dash _ _ _ (by simp)

theorem split_at_last (c : Char) :
    ∀ (a b p q : List Char), c ∉ a → c ∉ b → a ++ c :: p = b ++ c :: q → a = b := by
  intro a
  induction a with
  | nil =>
    intro b p q _ hb h
    cases b with
    | nil => rfl
    | cons y b =>
      simp only [List.nil_append, List.cons_append, List.cons.injEq] at h
      exact absurd (h.1 ▸ List.mem_cons_self _ _) hb
  | cons x a ih =>
    intro b p q ha hb h
    cases b with
    | nil =>
      simp only [List.nil_append, List.cons_append, List.cons.injEq] at h
      exact absurd (h.1 ▸ List.mem_cons_self _ _) ha
    | cons y b =>
      simp only [List.cons_append, List.cons.injEq] at h
      have := ih b p q (fun hm => ha (List.mem_cons_of_mem _ hm))
        (fun hm => hb (List.mem_cons_of_mem _ hm)) h.2
      rw [h.1, this]

/-- Two names with a dash and a decimal numeral appended agree only if the
numerals are of the same number. -/
theorem dash_numeral_inj (x y : String) (m n : Nat)
    (h : x ++ "-" ++ toString m = y ++ "-" ++ toString n) : m = n := by
  have h1 := congrArg String.data h
  simp only [String.data_append] at h1
  have h2 := congrArg List.reverse h1
  simp only [List.reverse_append, List.reverse_cons, List.reverse_nil, List.nil_append,
    List.singleton_append, List.append_assoc] at h2
  have h3 := split_at_last '-' _ _ _ _
    (by rw [List.mem_reverse]; exact fun hm => natToString_no_dash m _ hm rfl)
    (by rw [List.mem_reverse]; exact fun hm => natToString_no_dash n _ hm rfl) h2
  have h4 : (toString m).data = (toString n).data := List.reverse_injective h3
  exact natToString_injective m n (String.ext h4)

/-! ## Lemmas on the node expansion -/

theorem rangeAssign_replicate {α β : Type} (f : α → β) (z : β) (xs : List α) :
    ∀ done : List β, rangeAssign f xs done.length (done ++ List.replicate xs.length z)
      = done ++ xs.map f := by
  induction xs with
  | nil => intro done; simp [rangeAssign]
  | cons x rest ih =>
    intro done
    have h := ih (done ++ [f x])
    simp only [List.length_append, List.length_singleton, List.append_assoc,
      List.singleton_append] at h
    simp only [rangeAssign, List.length_cons, List.replicate_succ, List.map_cons]
    rw [List.set_append_right _ _ (le_refl _)]
    simpa using h

theorem rangeAssign_make {α β : Type} (f : α → β) (z : β) (xs : List α) :
    rangeAssign f xs 0 (List.replicate xs.length z) = xs.map f := by
  simpa using rangeAssign_replicate f z xs []

theorem toString_natCast (n : Nat) : toString ((n : Nat) : Int) = toString n := rfl

theorem sprintfDashD_natCast (n : Nat) : sprintfDashD ((n : Nat) : Int) = "-" ++ toString n := by
  simp [sprintfDashD, toString_natCast]

theorem expandNode_natCast (T : Machine) (n : Nat) :
    expandNode T ((n : Nat) : Int) =
      { Instance := { T.Instance with Name := T.Instance.Name ++ "-" ++ toString n }
        Volumes := T.Volumes.map fun v => { v with Name := v.Name ++ "-" ++ toString n } } := by
  simp only [expandNode, rangeAssign_make, sprintfDashD_natCast, String.append_assoc]

theorem nodeLoop_closed (c : Cluster) (extra : Nat) :
    ∀ (n : Nat) (i : Int), c.Nodes = i + n - 1 →
      nodeLoop c (n + extra) i = (List.range n).map fun k => expandNode c.Machine (i + (k : Nat)) := by
  intro n
  induction n with
  | zero =>
    intro i h
    cases extra with
    | zero => simp [nodeLoop]
    | succ e =>
      have : ¬ i ≤ c.Nodes := by omega
      simp [nodeLoop, this]
  | succ n ih =>
    intro i h
    have hle : i ≤ c.Nodes := by omega
    have hfuel : n + 1 + extra = (n + extra) + 1 := by omega
    rw [hfuel]
    simp only [nodeLoop, hle, if_true]
    rw [ih (i + 1) (by omega), List.range_succ_eq_map]
    simp only [List.map_cons, List.map_map, Nat.cast_zero, add_zero]
    congr 1
    apply List.map_congr_left
    intro k _
    simp only [Function.comp, Nat.cast_succ]
    congr 1
    omega

theorem nodeLoop_from_one (T : Machine) (N extra : Nat) :
    nodeLoop ⟨T, (N : Int)⟩ (N + extra) 1 =
      (List.range N).map fun k => expandNode T (((k + 1 : Nat)) : Int) := by
  rw [nodeLoop_closed ⟨T, (N : Int)⟩ extra N 1 (by simp)]
  apply List.map_congr_left
  intro k _
  congr 1
  push_cast
  omega

theorem nodeRequests_closed (T : Machine) (N : Nat) :
    nodeRequests ⟨T, (N : Int)⟩ =
      (List.range N).map fun k => expandNode T (((k + 1 : Nat)) : Int) := by
  have h := nodeLoop_from_one T N 0
  simpa [nodeRequests] using h

theorem nodeRequests_get (T : Machine) (N i : Nat) (req : Machine)
    (h : (nodeRequests ⟨T, (N : Int)⟩)[i]? = some req) :
    i < N ∧ req = expandNode T (((i + 1 : Nat)) : Int) := by
  rw [nodeRequests_closed] at h
  simp only [List.getElem?_map, Option.map_eq_some'] at h
  obtain ⟨k, hk, rfl⟩ := h
  obtain ⟨hlt, hk⟩ := List.getElem?_eq_some.mp hk
  simp only [List.length_range] at hlt
  simp only [List.getElem_range] at hk
  subst hk
  exact ⟨hlt, rfl⟩

/-! ## Lemma on the defaults -/

theorem setDefaults_closed (T : Machine) (D : Default) :
    setDefaults T D =
      { T with
        Instance := { T.Instance with
          ImageId := if T.Instance.ImageId = "" then D.ImageId else T.Instance.ImageId
          Region := if T.Instance.Region = "" then D.Region else T.Instance.Region
          KeyName := if T.Instance.KeyName = "" then D.KeyName else T.Instance.KeyName
          SecurityGroups := if T.Instance.SecurityGroups = [] then D.SecurityGroups
            else T.Instance.SecurityGroups
          SubnetId := if T.Instance.SubnetId = "" then D.SubnetId else T.Instance.SubnetId
          DefaultAvailableZone := if T.Instance.DefaultAvailableZone = ""
            then D.DefaultAvailableZone else T.Instance.DefaultAvailableZone } } := by
  obtain ⟨⟨id, name, typ, image, region, key, groups, subnet, zone, cc, ebs, sb, term, pg, emb⟩,
    vols⟩ := T
  simp only [setDefaults, List.length_eq_zero]
  by_cases h1 : image = "" <;> by_cases h2 : region = "" <;> by_cases h3 : key = "" <;>
    by_cases h4 : groups = [] <;> by_cases h5 : subnet = "" <;> by_cases h6 : zone = "" <;>
    simp only [h1, h2, h3, h4, h5, h6, if_true, if_false]

/-! ## Lemmas on the lifecycle -/

theorem nameFromTags_first (pre : List ec2.Tag) (t : ec2.Tag) (post : List ec2.Tag)
    (name : String) (hpre : ∀ u ∈ pre, u.Key ≠ "Name") (ht : t.Key = "Name") :
    nameFromTags (pre ++ t :: post) name = t.Value := by
  induction pre with
  | nil => simp [nameFromTags, ht]
  | cons u pre ih =>
    have hu : u.Key ≠ "Name" := hpre u (List.mem_cons_self _ _)
    simp only [List.cons_append, nameFromTags, hu, if_false]
    exact ih (fun v hv => hpre v (List.mem_cons_of_mem _ hv))

theorem nameFromTags_none (tags : List ec2.Tag) (name : String)
    (h : ∀ u ∈ tags, u.Key ≠ "Name") : nameFromTags tags name = name := by
  induction tags with
  | nil => rfl
  | cons u tags ih =>
    have hu : u.Key ≠ "Name" := h u (List.mem_cons_self _ _)
    simp only [nameFromTags, hu, if_false]
    exact ih (fun v hv => h v (List.mem_cons_of_mem _ hv))

theorem mergeInstances_Name (inst : Instance) (instanceRef : ec2.Instance) :
    (mergeInstances inst instanceRef).Name = nameFromTags instanceRef.Tags inst.Name := rfl

theorem mergeInstances_embedded (inst : Instance) (instanceRef : ec2.Instance) :
    (mergeInstances inst instanceRef).Instance = instanceRef := rfl

theorem Load_trace (ec2Ref : EC2) (trace : List Event) (inst : Instance) :
    (Load ec2Ref trace inst).trace =
      if inst.Id = "" then trace else trace ++ [Event.Instances [inst.Id]] := by
  unfold Load
  split
  · rfl
  · split
    · rfl
    · split
      · rfl
      · split <;> rfl

theorem Load_ok_embedded (ec2Ref : EC2) (trace : List Event) (inst : Instance)
    (snapshot : ec2.Instance) (h : (Load ec2Ref trace inst).val = .ok snapshot) :
    (Load ec2Ref trace inst).inst.Instance = snapshot := by
  unfold Load at h ⊢
  split at h
  · simp at h
  · split at h
    · simp at h
    · split at h
      · simp at h
      · split at h
        · simp at h
        · rename_i hres hinst
          simp only [Except.ok.injEq] at h
          subst h
          simp [*, mergeInstances_embedded]

theorem Get_load_path_snapshot (ec2Ref : EC2) (fs : Files) (fuel : Nat) (trace : List Event)
    (inst : Instance) (snapshot : ec2.Instance) (hid : inst.Id ≠ "")
    (h : (Get ec2Ref fs fuel trace inst).val = .ret (.ok snapshot)) :
    (Get ec2Ref fs fuel trace inst).inst.Instance = snapshot := by
  simp only [Get, hid, if_false, Exit.ret.injEq] at h ⊢
  exact Load_ok_embedded ec2Ref trace inst snapshot h

theorem WaitUntilState_trace (ec2Ref : EC2) (state : String) (fuel : Nat) :
    ∀ (trace : List Event) (inst : Instance),
      ∃ polls, (WaitUntilState ec2Ref fuel trace inst state).trace = trace ++ polls
        ∧ pollingShape polls = true := by
  induction fuel with
  | zero => intro trace inst; exact ⟨[], by simp [WaitUntilState], rfl⟩
  | succ fuel ih =>
    intro trace inst
    unfold WaitUntilState
    split
    · have hL := Load_trace ec2Ref (trace ++ [Event.Sleep 2]) inst
      dsimp only
      split
      · by_cases hid : inst.Id = ""
        · exact ⟨[Event.Sleep 2], by simp [hL, hid], rfl⟩
        · exact ⟨[Event.Sleep 2, Event.Instances [inst.Id]], by simp [hL, hid], rfl⟩
      · obtain ⟨polls, hp, hs⟩ := ih (Load ec2Ref (trace ++ [Event.Sleep 2]) inst).trace
          (Load ec2Ref (trace ++ [Event.Sleep 2]) inst).inst
        by_cases hid : inst.Id = ""
        · rename_i hok
          unfold Load at hok
          simp [hid] at hok
        · refine ⟨Event.Sleep 2 :: Event.Instances [inst.Id] :: polls, ?_, ?_⟩
          · rw [hp, hL]; simp [hid]
          · simpa [pollingShape, isSleep2, isFetch] using hs
    · exact ⟨[], by simp, rfl⟩

theorem Create_trace (ec2Ref : EC2) (fs : Files) (fuel : Nat) (trace : List Event)
    (inst : Instance) :
    ∃ added, (Create ec2Ref fs fuel trace inst).trace = trace ++ added
      ∧ createShape added = true := by
  unfold Create
  split
  · exact ⟨[], by simp, rfl⟩
  · rename_i options _
    split
    · exact ⟨[Event.RunInstances options], rfl, rfl⟩
    · split
      · exact ⟨[Event.RunInstances options], rfl, rfl⟩
      · rename_i instanceRef _ _
        dsimp only
        split
        · exact ⟨[Event.RunInstances options,
            Event.CreateTags [instanceRef.InstanceId] [⟨"Name", inst.Name⟩]], by simp, rfl⟩
        · obtain ⟨polls, hp, hs⟩ := WaitUntilState_trace ec2Ref "running" fuel
            (trace ++ [Event.RunInstances options] ++
              [Event.CreateTags [instanceRef.InstanceId] [⟨"Name", inst.Name⟩]])
            (mergeInstances inst instanceRef)
          refine ⟨Event.RunInstances options ::
            Event.CreateTags [instanceRef.InstanceId] [⟨"Name", inst.Name⟩] :: polls, ?_, ?_⟩
          · dsimp only
            split <;> (rw [hp]; simp)
          · simpa [createShape, isRunInstances, isCreateTags] using hs

/-! ## Lemmas on the node loop as it runs -/

theorem wrapInt_inRange (x : Int) (h0 : -9223372036854775808 ≤ x)
    (h1 : x < 9223372036854775808) : wrapInt x = x := by
  unfold wrapInt
  omega

theorem range_succ_map {β : Type} (g : Nat → β) (s : Nat) :
    (List.range s).map g ++ [g s] = (List.range (s + 1)).map g := by
  simp [List.range_succ]

theorem runNodes_closed (machineGet : List Machine → Machine → Except String Unit)
    (T : Machine) (N extra : Nat) (hN : N < 9223372036854775807) :
    ∀ (n s : Nat), s + n = N →
      ∃ k, s ≤ k ∧ k ≤ N
        ∧ (runNodes machineGet ⟨T, (N : Int)⟩ (n + extra) (((s + 1 : Nat)) : Int)
              ((List.range s).map fun j => expandNode T (((j + 1 : Nat)) : Int))).handed
            = (List.range k).map (fun j => expandNode T (((j + 1 : Nat)) : Int))
        ∧ ((∀ j, s ≤ j → j < N →
              machineGet ((List.range j).map fun j => expandNode T (((j + 1 : Nat)) : Int))
                (expandNode T (((j + 1 : Nat)) : Int)) = .ok ()) →
            k = N
            ∧ (runNodes machineGet ⟨T, (N : Int)⟩ (n + extra) (((s + 1 : Nat)) : Int)
                ((List.range s).map fun j => expandNode T (((j + 1 : Nat)) : Int))).exit
              = .ret ())
        ∧ ((runNodes machineGet ⟨T, (N : Int)⟩ (n + extra) (((s + 1 : Nat)) : Int)
              ((List.range s).map fun j => expandNode T (((j + 1 : Nat)) : Int))).exit
            = .ret () → k = N)
        ∧ (∀ msg,
            (runNodes machineGet ⟨T, (N : Int)⟩ (n + extra) (((s + 1 : Nat)) : Int)
              ((List.range s).map fun j => expandNode T (((j + 1 : Nat)) : Int))).exit
              = .panic msg →
            s < k
            ∧ machineGet
                ((List.range (k - 1)).map fun j => expandNode T (((j + 1 : Nat)) : Int))
                (expandNode T ((((k - 1) + 1 : Nat)) : Int)) = .error msg)
        ∧ (runNodes machineGet ⟨T, (N : Int)⟩ (n + extra) (((s + 1 : Nat)) : Int)
              ((List.range s).map fun j => expandNode T (((j + 1 : Nat)) : Int))).exit
            ≠ .spin := by
  intro n
  induction n with
  | zero =>
    intro s hs
    have hgt : ¬ (((s + 1 : Nat)) : Int) ≤ (N : Int) := by omega
    have hrun : ∀ h, runNodes machineGet ⟨T, (N : Int)⟩ (0 + extra) (((s + 1 : Nat)) : Int) h
        = ⟨h, .ret ()⟩ := by
      intro h
      cases extra with
      | zero => simp only [runNodes, hgt, if_false]
      | succ e =>
        have : 0 + (e + 1) = e + 1 := by omega
        rw [this]
        simp only [runNodes, hgt, if_false]
    refine ⟨s, le_refl _, by omega, ?_, ?_, ?_, ?_, ?_⟩
    · rw [hrun]
    · intro _; rw [hrun]; exact ⟨by omega, rfl⟩
    · intro _; omega
    · intro msg h; rw [hrun] at h; simp at h
    · rw [hrun]; simp
  | succ n ih =>
    intro s hs
    have hle : (((s + 1 : Nat)) : Int) ≤ (N : Int) := by omega
    have hfuel : n + 1 + extra = (n + extra) + 1 := by omega
    have hwrap : wrapInt ((((s + 1 : Nat)) : Int) + 1) = (((s + 1 + 1 : Nat)) : Int) := by
      rw [wrapInt_inRange _ (by omega) (by omega)]
      push_cast
      ring
    rw [hfuel]
    cases hget : machineGet ((List.range s).map fun j => expandNode T (((j + 1 : Nat)) : Int))
        (expandNode T (((s + 1 : Nat)) : Int)) with
    | error err =>
      have hrun : runNodes machineGet ⟨T, (N : Int)⟩ ((n + extra) + 1) (((s + 1 : Nat)) : Int)
          ((List.range s).map fun j => expandNode T (((j + 1 : Nat)) : Int))
          = ⟨(List.range (s + 1)).map (fun j => expandNode T (((j + 1 : Nat)) : Int)),
              .panic err⟩ := by
        simp only [runNodes, hle, if_true, hget]
        rw [range_succ_map (fun j => expandNode T (((j + 1 : Nat)) : Int)) s]
      refine ⟨s + 1, by omega, by omega, ?_, ?_, ?_, ?_, ?_⟩
      · rw [hrun]
      · intro hall
        have := hall s (le_refl _) (by omega)
        rw [hget] at this
        simp at this
      · intro h; rw [hrun] at h; simp at h
      · intro msg h
        rw [hrun] at h
        simp only [Exit.panic.injEq] at h
        subst h
        refine ⟨by omega, ?_⟩
        simpa using hget
      · rw [hrun]; simp
    | ok u =>
      have hrun : runNodes machineGet ⟨T, (N : Int)⟩ ((n + extra) + 1) (((s + 1 : Nat)) : Int)
          ((List.range s).map fun j => expandNode T (((j + 1 : Nat)) : Int))
          = runNodes machineGet ⟨T, (N : Int)⟩ (n + extra) (((s + 1 + 1 : Nat)) : Int)
              ((List.range (s + 1)).map fun j => expandNode T (((j + 1 : Nat)) : Int)) := by
        simp only [runNodes, hle, if_true, hget, hwrap]
        rw [range_succ_map (fun j => expandNode T (((j + 1 : Nat)) : Int)) s]
      obtain ⟨k, hsk, hkN, hh, hall, hret, hpanic, hspin⟩ := ih (s + 1) (by omega)
      rw [hrun]
      refine ⟨k, by omega, hkN, hh, ?_, hret, ?_, hspin⟩
      · intro h
        exact hall (fun j hj hjN => h j (by omega) hjN)
      · intro msg h
        obtain ⟨h1, h2⟩ := hpanic msg h
        exact ⟨by omega, h2⟩

/-! ## Lemmas on the polling rounds -/

theorem Load_ok_id (ec2Ref : EC2) (trace : List Event) (inst : Instance)
    (snapshot : ec2.Instance) (h : (Load ec2Ref trace inst).val = .ok snapshot) :
    inst.Id ≠ "" := by
  intro hid
  simp [Load, hid] at h

theorem WaitUntilState_round_error (ec2Ref : EC2) (fuel : Nat) (trace : List Event)
    (inst : Instance) (state err : String) (hst : inst.Instance.State.Name ≠ state)
    (hval : (Load ec2Ref (trace ++ [Event.Sleep 2]) inst).val = .error err) :
    WaitUntilState ec2Ref (fuel + 1) trace inst state =
      ⟨.ret (.error err), (Load ec2Ref (trace ++ [Event.Sleep 2]) inst).inst,
        (Load ec2Ref (trace ++ [Event.Sleep 2]) inst).trace⟩ := by
  simp only [WaitUntilState, hst, ne_eq, not_false_eq_true, if_true, hval]

theorem WaitUntilState_round_ok (ec2Ref : EC2) (fuel : Nat) (trace : List Event)
    (inst : Instance) (state : String) (snapshot : ec2.Instance)
    (hst : inst.Instance.State.Name ≠ state)
    (hval : (Load ec2Ref (trace ++ [Event.Sleep 2]) inst).val = .ok snapshot) :
    WaitUntilState ec2Ref (fuel + 1) trace inst state =
      WaitUntilState ec2Ref fuel (Load ec2Ref (trace ++ [Event.Sleep 2]) inst).trace
        (Load ec2Ref (trace ++ [Event.Sleep 2]) inst).inst state := by
  simp only [WaitUntilState, hst, ne_eq, not_false_eq_true, if_true, hval]

theorem WaitUntilState_rounds (ec2Ref : EC2) (state : String) (fuel : Nat) :
    ∀ (trace : List Event) (inst : Instance),
      ∃ recs : List Instance,
        (WaitUntilState ec2Ref fuel trace inst state).trace = trace ++ pollRounds recs
        ∧ (∀ r ∈ recs, r.Instance.State.Name ≠ state)
        ∧ (∀ r, recs.head? = some r → r = inst)
        ∧ List.Chain' (fun r next => ∃ tr, next = (Load ec2Ref tr r).inst) recs
        ∧ ((WaitUntilState ec2Ref fuel trace inst state).val = .ret (.ok ()) →
            (WaitUntilState ec2Ref fuel trace inst state).inst.Instance.State.Name = state) := by
  induction fuel with
  | zero =>
    intro trace inst
    refine ⟨[], by simp [WaitUntilState, pollRounds], by simp, by simp, by simp, ?_⟩
    intro h
    simp [WaitUntilState] at h
  | succ fuel ih =>
    intro trace inst
    by_cases hst : inst.Instance.State.Name = state
    · have hW : WaitUntilState ec2Ref (fuel + 1) trace inst state = ⟨.ret (.ok ()), inst, trace⟩ := by
        simp [WaitUntilState, hst]
      rw [hW]
      exact ⟨[], by simp [pollRounds], by simp, by simp, by simp, fun _ => hst⟩
    · have hL := Load_trace ec2Ref (trace ++ [Event.Sleep 2]) inst
      cases hval : (Load ec2Ref (trace ++ [Event.Sleep 2]) inst).val with
      | error err =>
        rw [WaitUntilState_round_error ec2Ref fuel trace inst state err hst hval]
        refine ⟨[inst], ?_, ?_, ?_, by simp, ?_⟩
        · show (Load ec2Ref (trace ++ [Event.Sleep 2]) inst).trace = _
          rw [hL]
          by_cases hid : inst.Id = "" <;> simp [pollRounds, hid]
        · intro r hr
          simp only [List.mem_singleton] at hr
          subst hr
          exact hst
        · intro r hr
          simpa using hr.symm
        · intro h
          simp at h
      | ok snapshot =>
        have hid : inst.Id ≠ "" := Load_ok_id ec2Ref _ inst snapshot hval
        rw [WaitUntilState_round_ok ec2Ref fuel trace inst state snapshot hst hval]
        obtain ⟨recs, htr, hall, hhead, hchain, hok⟩ :=
          ih (Load ec2Ref (trace ++ [Event.Sleep 2]) inst).trace
            (Load ec2Ref (trace ++ [Event.Sleep 2]) inst).inst
        refine ⟨inst :: recs, ?_, ?_, ?_, ?_, hok⟩
        · rw [htr, hL]
          simp [pollRounds, hid]
        · intro r hr
          rcases List.mem_cons.mp hr with rfl | hr
          · exact hst
          · exact hall r hr
        · intro r hr
          simpa using hr.symm
        · cases recs with
          | nil => simp
          | cons b l =>
            rw [List.chain'_cons]
            refine ⟨⟨trace ++ [Event.Sleep 2], ?_⟩, hchain⟩
            exact hhead b rfl

theorem Create_polling (ec2Ref : EC2) (fs : Files) (fuel : Nat) (trace : List Event)
    (inst : Instance) (options : ec2.RunInstances) (resp : ec2.RunInstancesResp)
    (instanceRef : ec2.Instance) (rest : List ec2.Instance) (u : Unit)
    (hopt : runOptions fs inst = .ok options)
    (hrun : ec2Ref.RunInstances trace options = .ok resp)
    (hinst : resp.Instances = instanceRef :: rest)
    (htag : ec2Ref.CreateTags (trace ++ [Event.RunInstances options])
      [instanceRef.InstanceId] [⟨"Name", inst.Name⟩] = .ok u) :
    (Create ec2Ref fs fuel trace inst).trace =
        (WaitUntilState ec2Ref fuel
          (trace ++ [Event.RunInstances options] ++
            [Event.CreateTags [instanceRef.InstanceId] [⟨"Name", inst.Name⟩]])
          (mergeInstances inst instanceRef) "running").trace
    ∧ (Create ec2Ref fs fuel trace inst).inst =
        (WaitUntilState ec2Ref fuel
          (trace ++ [Event.RunInstances options] ++
            [Event.CreateTags [instanceRef.InstanceId] [⟨"Name", inst.Name⟩]])
          (mergeInstances inst instanceRef) "running").inst
    ∧ (∀ snapshot, (Create ec2Ref fs fuel trace inst).val = .ret (.ok snapshot) →
        (WaitUntilState ec2Ref fuel
          (trace ++ [Event.RunInstances options] ++
            [Event.CreateTags [instanceRef.InstanceId] [⟨"Name", inst.Name⟩]])
          (mergeInstances inst instanceRef) "running").val = .ret (.ok ())) := by
  simp only [Create, hopt, hrun, hinst, htag]
  split <;> simp_all

theorem Create_rounds (ec2Ref : EC2) (fs : Files) (fuel : Nat) (trace : List Event)
    (inst : Instance) :
    ∃ (added : List Event) (recs : List Instance),
      (Create ec2Ref fs fuel trace inst).trace = trace ++ added
      ∧ createShape added = true
      ∧ added.drop 2 = pollRounds recs
      ∧ (∀ r ∈ recs, r.Instance.State.Name ≠ "running")
      ∧ (∀ r, recs.head? = some r →
          ∃ options resp instanceRef rest, runOptions fs inst = .ok options
            ∧ ec2Ref.RunInstances trace options = .ok resp
            ∧ resp.Instances = instanceRef :: rest
            ∧ r = mergeInstances inst instanceRef)
      ∧ List.Chain' (fun r next => ∃ tr, next = (Load ec2Ref tr r).inst) recs
      ∧ (∀ snapshot, (Create ec2Ref fs fuel trace inst).val = .ret (.ok snapshot) →
          (Create ec2Ref fs fuel trace inst).inst.Instance.State.Name = "running") := by
  cases hopt : runOptions fs inst with
  | error msg =>
    refine ⟨[], [], ?_, rfl, rfl, by simp, by simp, by simp, ?_⟩
    · simp [Create, hopt]
    · intro snapshot h; simp [Create, hopt] at h
  | ok options =>
    cases hrun : ec2Ref.RunInstances trace options with
    | error err =>
      refine ⟨[Event.RunInstances options], [], ?_, rfl, rfl, by simp, by simp, by simp, ?_⟩
      · simp [Create, hopt, hrun]
      · intro snapshot h; simp [Create, hopt, hrun] at h
    | ok resp =>
      cases hinst : resp.Instances with
      | nil =>
        refine ⟨[Event.RunInstances options], [], ?_, rfl, rfl, by simp, by simp, by simp, ?_⟩
        · simp [Create, hopt, hrun, hinst]
        · intro snapshot h; simp [Create, hopt, hrun, hinst] at h
      | cons instanceRef rest =>
        cases htag : ec2Ref.CreateTags (trace ++ [Event.RunInstances options])
            [instanceRef.InstanceId] [⟨"Name", inst.Name⟩] with
        | error err =>
          refine ⟨[Event.RunInstances options,
            Event.CreateTags [instanceRef.InstanceId] [⟨"Name", inst.Name⟩]], [],
            ?_, rfl, rfl, by simp, by simp, by simp, ?_⟩
          · simp [Create, hopt, hrun, hinst, htag]
          · intro snapshot h; simp [Create, hopt, hrun, hinst, htag] at h
        | ok u =>
          obtain ⟨htr, hin, hval⟩ :=
            Create_polling ec2Ref fs fuel trace inst options resp instanceRef rest u
              hopt hrun hinst htag
          obtain ⟨recs, hw, hall, hhead, hchain, hok⟩ :=
            WaitUntilState_rounds ec2Ref "running" fuel
              (trace ++ [Event.RunInstances options] ++
                [Event.CreateTags [instanceRef.InstanceId] [⟨"Name", inst.Name⟩]])
              (mergeInstances inst instanceRef)
          obtain ⟨polls, hp, hs⟩ :=
            WaitUntilState_trace ec2Ref "running" fuel
              (trace ++ [Event.RunInstances options] ++
                [Event.CreateTags [instanceRef.InstanceId] [⟨"Name", inst.Name⟩]])
              (mergeInstances inst instanceRef)
          have hpolls : polls = pollRounds recs := by
            rw [hw] at hp
            exact (List.append_cancel_left hp).symm
          refine ⟨Event.RunInstances options ::
            Event.CreateTags [instanceRef.InstanceId] [⟨"Name", inst.Name⟩] :: pollRounds recs,
            recs, ?_, ?_, rfl, hall, ?_, hchain, ?_⟩
          · rw [htr, hw]; simp
          · rw [← hpolls]
            simpa [createShape, isRunInstances, isCreateTags] using hs
          · intro r hr
            exact ⟨options, resp, instanceRef, rest, rfl, hrun, hinst, hhead r hr⟩
          · intro snapshot h
            rw [hin]
            exact hok (hval snapshot h)

/-- The requests that a run of the node loop hands over are the first `k` of
`nodeRequests`, for some `k`; all of them when no call of `machine.Get` fails. -/
theorem runNodes_handed_nodeRequests
    (machineGet : List Machine → Machine → Except String Unit)
    (T : Machine) (N extra : Nat) (hN : N < 9223372036854775807) :
    ∃ k, k ≤ N
      ∧ (runNodes machineGet ⟨T, (N : Int)⟩ (N + extra) 1 []).handed
          = (nodeRequests ⟨T, (N : Int)⟩).take k
      ∧ ((∀ handed req, machineGet handed req = .ok ()) → k = N) := by
  obtain ⟨k, _, hk, hh, hall, _, _, _⟩ := runNodes_closed machineGet T N extra hN N 0 (by omega)
  refine ⟨k, hk, ?_, ?_⟩
  · have h1 : (((0 + 1 : Nat)) : Int) = 1 := by norm_num
    rw [h1] at hh
    simp only [List.range_zero, List.map_nil] at hh
    rw [hh, nodeRequests_closed, ← List.map_take, List.take_range, Nat.min_eq_left hk]
  · intro hok
    exact (hall (fun j _ _ => hok _ _)).1

/-- The requests of a cluster of `N` nodes written out: `N` requests in the order
of the indices `1..N`; request `i` is `T` with the instance name
`T.name ++ "-" ++ decimal i` and with the volumes of `T`, in the same order, each
renamed to its own name followed by `"-" ++ decimal i`. Every amount of fuel from
`N` on gives this same list. -/
theorem nodeRequests_expansion (T : Machine) (N extra : Nat) :
    nodeRequests ⟨T, (N : Int)⟩ =
        (List.range N).map (fun k =>
          ({ Instance := { T.Instance with Name := T.Instance.Name ++ "-" ++ toString (k + 1) }
             Volumes := T.Volumes.map fun v =>
               { v with Name := v.Name ++ "-" ++ toString (k + 1) } } : Machine))
    ∧ (nodeRequests ⟨T, (N : Int)⟩).length = N
    ∧ nodeLoop ⟨T, (N : Int)⟩ (N + extra) 1 = nodeRequests ⟨T, (N : Int)⟩ := by
  have h : nodeRequests ⟨T, (N : Int)⟩ =
      (List.range N).map (fun k =>
        ({ Instance := { T.Instance with Name := T.Instance.Name ++ "-" ++ toString (k + 1) }
           Volumes := T.Volumes.map fun v =>
             { v with Name := v.Name ++ "-" ++ toString (k + 1) } } : Machine)) := by
    rw [nodeRequests_closed]
    apply List.map_congr_left
    intro k _
    exact expandNode_natCast T (k + 1)
  refine ⟨h, ?_, ?_⟩
  · rw [h]; simp
  · rw [nodeLoop_from_one, nodeRequests_closed]

/-! ## The claims -/

/-- C1: `setDefaults` resolves each of the six fields ImageId, Region, KeyName,
SecurityGroups, SubnetId and DefaultAvailableZone to the machine's own value
when that value is not the zero value (empty string, empty list) and to the
default's value when it is, and it changes no other field of the machine. -/
theorem setDefaults_resolves (T : Machine) (D : Default) :
    (setDefaults T D).Instance.ImageId
        = (if T.Instance.ImageId = "" then D.ImageId else T.Instance.ImageId)
    ∧ (setDefaults T D).Instance.Region
        = (if T.Instance.Region = "" then D.Region else T.Instance.Region)
    ∧ (setDefaults T D).Instance.KeyName
        = (if T.Instance.KeyName = "" then D.KeyName else T.Instance.KeyName)
    ∧ (setDefaults T D).Instance.SecurityGroups
        = (if T.Instance.SecurityGroups = [] then D.SecurityGroups
            else T.Instance.SecurityGroups)
    ∧ (setDefaults T D).Instance.SubnetId
        = (if T.Instance.SubnetId = "" then D.SubnetId else T.Instance.SubnetId)
    ∧ (setDefaults T D).Instance.DefaultAvailableZone
        = (if T.Instance.DefaultAvailableZone = "" then D.DefaultAvailableZone
            else T.Instance.DefaultAvailableZone)
    ∧ (setDefaults T D).Volumes = T.Volumes
    ∧ (setDefaults T D).Instance.Id = T.Instance.Id
    ∧ (setDefaults T D).Instance.Name = T.Instance.Name
    ∧ (setDefaults T D).Instance.Typ = T.Instance.Typ
    ∧ (setDefaults T D).Instance.CloudConfig = T.Instance.CloudConfig
    ∧ (setDefaults T D).Instance.EBSOptimized = T.Instance.EBSOptimized
    ∧ (setDefaults T D).Instance.ShutdownBehavior = T.Instance.ShutdownBehavior
    ∧ (setDefaults T D).Instance.EnableAPITermination = T.Instance.EnableAPITermination
    ∧ (setDefaults T D).Instance.PlacementGroupName = T.Instance.PlacementGroupName
    ∧ (setDefaults T D).Instance.Instance = T.Instance.Instance := by
  rw [setDefaults_closed]
  exact ⟨rfl, rfl, rfl, rfl, rfl, rfl, rfl, rfl, rfl, rfl, rfl, rfl, rfl, rfl, rfl, rfl⟩

/-- Counterexample to C2 as stated: a cluster of two nodes whose first call of
`machine.Get` returns an error; the loop hands over one request, not two, and
ends in the panic of line 135. -/
theorem runNodes_stops_at_failure :
    (runNodes Sample.failingGet ⟨Sample.template, 2⟩ 2 1 []).handed
        = [expandNode Sample.template 1]
    ∧ (runNodes Sample.failingGet ⟨Sample.template, 2⟩ 2 1 []).handed.length ≠ 2
    ∧ (runNodes Sample.failingGet ⟨Sample.template, 2⟩ 2 1 []).exit
        = .panic "RequestLimitExceeded" := by
  refine ⟨rfl, ?_, rfl⟩
  decide

/-- C2, amended: for a machine `T` and a node count `N ≥ 0` below the largest
`int`, request `i` is `T` with the instance name `T.name ++ "-" ++ decimal i` and
with the volumes of `T`, in the same order, each renamed to its own name
followed by `"-" ++ decimal i`. The node loop hands the requests of the indices
`1..k` to `machine.Get`, in this order, for some `k ≤ N`, and never runs on:
when every call returns without error it hands over all `N` (none when `N = 0`)
and ends normally; it ends normally only after all `N`; and when it ends in a
panic, the last request handed over is the one whose call returned the error.
Every amount of fuel from `N` on gives the same run. -/
theorem runNodes_expansion (machineGet : List Machine → Machine → Except String Unit)
    (T : Machine) (N extra : Nat) (hN : N < 9223372036854775807) :
    (∀ i : Nat, expandNode T (i : Int) =
        { Instance := { T.Instance with Name := T.Instance.Name ++ "-" ++ toString i }
          Volumes := T.Volumes.map fun v => { v with Name := v.Name ++ "-" ++ toString i } })
    ∧ ∃ k, k ≤ N
        ∧ (runNodes machineGet ⟨T, (N : Int)⟩ (N + extra) 1 []).handed
            = (List.range k).map (fun j => expandNode T (((j + 1 : Nat)) : Int))
        ∧ ((∀ j, j < N →
              machineGet ((List.range j).map fun j => expandNode T (((j + 1 : Nat)) : Int))
                (expandNode T (((j + 1 : Nat)) : Int)) = .ok ()) →
            k = N ∧ (runNodes machineGet ⟨T, (N : Int)⟩ (N + extra) 1 []).exit = .ret ())
        ∧ ((runNodes machineGet ⟨T, (N : Int)⟩ (N + extra) 1 []).exit = .ret () → k = N)
        ∧ (∀ msg, (runNodes machineGet ⟨T, (N : Int)⟩ (N + extra) 1 []).exit = .panic msg →
            0 < k
            ∧ machineGet
                ((List.range (k - 1)).map fun j => expandNode T (((j + 1 : Nat)) : Int))
                (expandNode T ((((k - 1) + 1 : Nat)) : Int)) = .error msg)
        ∧ (runNodes machineGet ⟨T, (N : Int)⟩ (N + extra) 1 []).exit ≠ .spin := by
  refine ⟨fun i => expandNode_natCast T i, ?_⟩
  obtain ⟨k, _, hk, hh, hall, hret, hpanic, hspin⟩ :=
    runNodes_closed machineGet T N extra hN N 0 (by omega)
  have h1 : (((0 + 1 : Nat)) : Int) = 1 := by norm_num
  rw [h1] at hh hall hret hpanic hspin
  simp only [List.range_zero, List.map_nil] at hh hall hret hpanic hspin
  exact ⟨k, hk, hh, fun h => hall (fun j _ hj => h j hj), hret, hpanic, hspin⟩

/-- Witness of C2, amended: a cluster of two nodes. -/
theorem runNodes_expansion_witness :
    2 < 9223372036854775807
    ∧ ∃ k, k ≤ 2
        ∧ (runNodes Sample.steadyGet ⟨Sample.template, ((2 : Nat) : Int)⟩ (2 + 0) 1 []).handed
            = (List.range k).map (fun j => expandNode Sample.template (((j + 1 : Nat)) : Int))
        ∧ ((runNodes Sample.steadyGet ⟨Sample.template, ((2 : Nat) : Int)⟩ (2 + 0) 1 []).exit
            = .ret () → k = 2) :=
  ⟨by decide,
    match (runNodes_expansion Sample.steadyGet Sample.template 2 0 (by decide)).2 with
    | ⟨k, hk, hh, _, hret, _, _⟩ => ⟨k, hk, hh, hret⟩⟩

/-- C3: within one expansion, two requests at different positions of the list
(position `i` holds the request of index `i + 1`) have different instance
names, and no volume name of the one is a volume name of the other, whatever the
names of the machine and of its volumes are. -/
theorem nodeRequests_names_unique (T : Machine) (N i j : Nat) (a b : Machine)
    (hi : (nodeRequests ⟨T, (N : Int)⟩)[i]? = some a)
    (hj : (nodeRequests ⟨T, (N : Int)⟩)[j]? = some b) (hij : i ≠ j) :
    a.Instance.Name ≠ b.Instance.Name
    ∧ ∀ v ∈ a.Volumes, ∀ w ∈ b.Volumes, v.Name ≠ w.Name := by
  obtain ⟨_, rfl⟩ := nodeRequests_get T N i a hi
  obtain ⟨_, rfl⟩ := nodeRequests_get T N j b hj
  rw [expandNode_natCast, expandNode_natCast]
  constructor
  · intro h
    have := dash_numeral_inj _ _ _ _ h
    omega
  · intro v hv w hw h
    simp only [List.mem_map] at hv hw
    obtain ⟨v0, _, rfl⟩ := hv
    obtain ⟨w0, _, rfl⟩ := hw
    have := dash_numeral_inj _ _ _ _ h
    omega

/-- Witness of C3: the first two requests of the sample machine, one of whose
volume names ends in a dash and a digit. -/
theorem nodeRequests_names_unique_witness :
    (nodeRequests ⟨Sample.template, 2⟩)[0]? = some (expandNode Sample.template 1)
    ∧ (nodeRequests ⟨Sample.template, 2⟩)[1]? = some (expandNode Sample.template 2)
    ∧ (expandNode Sample.template 1).Instance.Name ≠ (expandNode Sample.template 2).Instance.Name
    ∧ ∀ v ∈ (expandNode Sample.template 1).Volumes,
        ∀ w ∈ (expandNode Sample.template 2).Volumes, v.Name ≠ w.Name :=
  ⟨rfl, rfl, nodeRequests_names_unique Sample.template 2 0 1 _ _ rfl rfl (by decide)⟩

/-- Counterexample to C4 as stated: a record without identifier, a provider that
creates the instance in state "pending": `Get` succeeds through `Create`, and
its polling fetches the instance by identifier during the call. -/
theorem Get_create_path_fetches :
    Sample.fresh.Id = ""
    ∧ (Get Sample.provider Sample.noFiles 2 [] Sample.fresh).val = .ret (.ok Sample.pending)
    ∧ Event.Instances ["i-1"] ∈ (Get Sample.provider Sample.noFiles 2 [] Sample.fresh).trace
    ∧ (Get Sample.provider Sample.noFiles 2 [] Sample.fresh).trace =
        [ Event.RunInstances
            { ImageId := "ami-1", InstanceType := "", KeyName := "",
              SecurityGroups := [⟨"sg-1", ""⟩], SubnetId := "", EBSOptimized := false,
              DisableAPITermination := true, UserData := [], ShutdownBehavior := "",
              PlacementGroupName := "" },
          Event.CreateTags ["i-1"] [⟨"Name", "web-1"⟩],
          Event.Sleep 2,
          Event.Instances ["i-1"] ] := by
  refine ⟨rfl, rfl, ?_, rfl⟩
  decide

/-- C4, amended: with an empty identifier at entry `Get` is `Create`, whose
events are nothing (panic of the cloud-config block), or the creation request
alone, or the creation request, the tagging call and then the polling rounds,
each a two-second sleep followed by a fetch by the record's identifier: no fetch
comes before the creation request and the tagging call. The rounds start from the
records `recs`: the first is the record right after the merge of the created
instance, each next one is the record as the `Load` of the round before left it,
and each has a state name other than "running", so a fetch is performed only
while the record's state is not "running"; when `Get` succeeds on this path the
record is in state "running". With a non-empty identifier at entry `Get` goes
through `Load` and performs one fetch by that identifier and nothing else: no
creation request and no tagging call. -/
theorem Get_routing (ec2Ref : EC2) (fs : Files) (fuel : Nat) (trace : List Event)
    (inst : Instance) :
    (inst.Id = "" →
      Get ec2Ref fs fuel trace inst = Create ec2Ref fs fuel trace inst
      ∧ ∃ (added : List Event) (recs : List Instance),
          (Get ec2Ref fs fuel trace inst).trace = trace ++ added
          ∧ createShape added = true
          ∧ added.drop 2 = pollRounds recs
          ∧ (∀ r ∈ recs, r.Instance.State.Name ≠ "running")
          ∧ (∀ r, recs.head? = some r →
              ∃ options resp instanceRef rest, runOptions fs inst = .ok options
                ∧ ec2Ref.RunInstances trace options = .ok resp
                ∧ resp.Instances = instanceRef :: rest
                ∧ r = mergeInstances inst instanceRef)
          ∧ List.Chain' (fun r next => ∃ tr, next = (Load ec2Ref tr r).inst) recs
          ∧ (∀ snapshot, (Get ec2Ref fs fuel trace inst).val = .ret (.ok snapshot) →
              (Get ec2Ref fs fuel trace inst).inst.Instance.State.Name = "running"))
    ∧ (inst.Id ≠ "" →
      Get ec2Ref fs fuel trace inst =
          ⟨.ret (Load ec2Ref trace inst).val, (Load ec2Ref trace inst).inst,
            (Load ec2Ref trace inst).trace⟩
      ∧ (Get ec2Ref fs fuel trace inst).trace = trace ++ [Event.Instances [inst.Id]]) := by
  constructor
  · intro hid
    have hG : Get ec2Ref fs fuel trace inst = Create ec2Ref fs fuel trace inst := by
      simp [Get, hid]
    refine ⟨hG, ?_⟩
    rw [hG]
    exact Create_rounds ec2Ref fs fuel trace inst
  · intro hid
    have hG : Get ec2Ref fs fuel trace inst =
        ⟨.ret (Load ec2Ref trace inst).val, (Load ec2Ref trace inst).inst,
          (Load ec2Ref trace inst).trace⟩ := by
      simp [Get, hid]
    refine ⟨hG, ?_⟩
    rw [hG]
    simp [Load_trace, hid]

/-- Witness of C4, amended: the record without identifier and the record with
the identifier "i-1", on the provider that creates in state "pending". -/
theorem Get_routing_witness :
    Sample.fresh.Id = ""
    ∧ Sample.known.Id ≠ ""
    ∧ (∃ (added : List Event) (recs : List Instance),
        (Get Sample.provider Sample.noFiles 2 [] Sample.fresh).trace = [] ++ added
        ∧ createShape added = true
        ∧ added.drop 2 = pollRounds recs
        ∧ (∀ r ∈ recs, r.Instance.State.Name ≠ "running")
        ∧ (∀ r, recs.head? = some r →
            ∃ options resp instanceRef rest,
              runOptions Sample.noFiles Sample.fresh = .ok options
              ∧ Sample.provider.RunInstances [] options = .ok resp
              ∧ resp.Instances = instanceRef :: rest
              ∧ r = mergeInstances Sample.fresh instanceRef)
        ∧ List.Chain' (fun r next => ∃ tr, next = (Load Sample.provider tr r).inst) recs
        ∧ (∀ snapshot,
            (Get Sample.provider Sample.noFiles 2 [] Sample.fresh).val = .ret (.ok snapshot) →
            (Get Sample.provider Sample.noFiles 2 [] Sample.fresh).inst.Instance.State.Name
              = "running"))
    ∧ (Get Sample.provider Sample.noFiles 2 [] Sample.known).trace
        = [] ++ [Event.Instances [Sample.known.Id]] :=
  ⟨rfl, by decide,
    ((Get_routing Sample.provider Sample.noFiles 2 [] Sample.fresh).1 rfl).2,
    ((Get_routing Sample.provider Sample.noFiles 2 [] Sample.known).2 (by decide)).2⟩

/-- Counterexample to C5 as stated: a machine whose file sets an identifier; both
requests of a cluster of two nodes carry that identifier, not an empty one. -/
theorem nodeRequests_keep_identifier :
    (nodeRequests ⟨Sample.adopted, 2⟩).map (fun req => req.Instance.Id) = ["i-abc", "i-abc"]
    ∧ ¬ (∀ req ∈ nodeRequests ⟨Sample.adopted, 2⟩, req.Instance.Id = "") := by
  refine ⟨rfl, ?_⟩
  decide

/-- C5, amended: the request built for node `i` carries the identifier of the
machine it is built from, unchanged; it is empty when the machine's is empty. -/
theorem nodeRequests_identifier (T : Machine) (N i : Nat) (req : Machine)
    (h : (nodeRequests ⟨T, (N : Int)⟩)[i]? = some req) :
    req.Instance.Id = T.Instance.Id := by
  obtain ⟨_, rfl⟩ := nodeRequests_get T N i req h
  rfl

/-- Witness of C5, amended: the second request of the sample machine. -/
theorem nodeRequests_identifier_witness :
    (nodeRequests ⟨Sample.template, 2⟩)[1]? = some (expandNode Sample.template 2)
    ∧ (expandNode Sample.template 2).Instance.Id = Sample.template.Instance.Id :=
  ⟨rfl, nodeRequests_identifier Sample.template 2 1 _ rfl⟩

/-- C6, the code at the failing input: `Get` on a record without identifier,
against a provider that creates in state "pending" and reports "running" when
fetched, succeeds; the snapshot it returns is in state "pending" and is not the
provider state embedded in the record, which is in state "running". -/
theorem Get_create_returns_stale_snapshot :
    (Get Sample.provider Sample.noFiles 2 [] Sample.fresh).val = .ret (.ok Sample.pending)
    ∧ Sample.pending.State.Name = "pending"
    ∧ (Get Sample.provider Sample.noFiles 2 [] Sample.fresh).inst.Instance = Sample.running
    ∧ (Get Sample.provider Sample.noFiles 2 [] Sample.fresh).inst.Instance.State.Name = "running"
    ∧ Sample.pending ≠ Sample.running := by
  refine ⟨rfl, rfl, rfl, rfl, ?_⟩
  decide

/-- Counterexample to C7 as stated: the provider answers the fetch with two
reservations, the first of two instances; `Load` succeeds with the first
instance and merges it into the record. -/
theorem Load_accepts_several_matches :
    Sample.known.Id ≠ ""
    ∧ Sample.crowdedProvider.Instances [] [Sample.known.Id]
        = .ok ⟨[⟨[Sample.running, Sample.other]⟩, ⟨[Sample.other]⟩]⟩
    ∧ (Load Sample.crowdedProvider [] Sample.known).val = .ok Sample.running
    ∧ (Load Sample.crowdedProvider [] Sample.known).inst
        = mergeInstances Sample.known Sample.running
    ∧ (Load Sample.crowdedProvider [] Sample.known).inst ≠ Sample.known := by
  refine ⟨by decide, rfl, rfl, rfl, ?_⟩
  decide

/-- C7, amended: for a record with a non-empty identifier, when the fetch
answers with at least one reservation whose first reservation holds at least
one instance, however many further reservations and instances there are, `Load`
succeeds with the first instance of the first reservation and merges it into the
record; and whenever `Load` fails, it has merged nothing: the record is as it
was. -/
theorem Load_takes_first (ec2Ref : EC2) (trace : List Event) (inst : Instance)
    (hid : inst.Id ≠ "") :
    (∀ (resp : ec2.InstancesResp) (reservation : ec2.Reservation)
        (others : List ec2.Reservation) (first : ec2.Instance) (rest : List ec2.Instance),
        ec2Ref.Instances trace [inst.Id] = .ok resp →
        resp.Reservations = reservation :: others →
        reservation.Instances = first :: rest →
        Load ec2Ref trace inst =
          ⟨.ok first, mergeInstances inst first, trace ++ [Event.Instances [inst.Id]]⟩)
    ∧ (∀ err, (Load ec2Ref trace inst).val = .error err →
        (Load ec2Ref trace inst).inst = inst) := by
  constructor
  · intro resp reservation others first rest hresp hres hinst
    simp [Load, hid, hresp, hres, hinst]
  · intro err h
    cases hresp : ec2Ref.Instances trace [inst.Id] with
    | error e => simp [Load, hid, hresp]
    | ok resp =>
      cases hres : resp.Reservations with
      | nil => simp [Load, hid, hresp, hres]
      | cons reservation others =>
        cases hinst : reservation.Instances with
        | nil => simp [Load, hid, hresp, hres, hinst]
        | cons first rest => simp [Load, hid, hresp, hres, hinst] at h

/-- Witness of C7, amended: the record with identifier "i-1" and the provider
that answers with two reservations. -/
theorem Load_takes_first_witness :
    Sample.known.Id ≠ ""
    ∧ Load Sample.crowdedProvider [] Sample.known =
        ⟨.ok Sample.running, mergeInstances Sample.known Sample.running,
          [] ++ [Event.Instances [Sample.known.Id]]⟩ :=
  ⟨by decide,
    (Load_takes_first Sample.crowdedProvider [] Sample.known (by decide)).1
      _ _ _ _ _ rfl rfl rfl⟩

/-- C8: after `mergeInstances` the record's name is the value of the first tag of
the snapshot whose key is "Name", when the snapshot has such a tag, and the
record's name from before the merge when it has none. -/
theorem mergeInstances_name_tag (inst : Instance) (instanceRef : ec2.Instance) :
    (∀ (pre : List ec2.Tag) (t : ec2.Tag) (post : List ec2.Tag),
        instanceRef.Tags = pre ++ t :: post → (∀ u ∈ pre, u.Key ≠ "Name") → t.Key = "Name" →
        (mergeInstances inst instanceRef).Name = t.Value)
    ∧ ((∀ u ∈ instanceRef.Tags, u.Key ≠ "Name") →
        (mergeInstances inst instanceRef).Name = inst.Name) := by
  constructor
  · intro pre t post htags hpre ht
    rw [mergeInstances_Name, htags]
    exact nameFromTags_first pre t post inst.Name hpre ht
  · intro h
    rw [mergeInstances_Name]
    exact nameFromTags_none _ _ h

/-- Witness of C8: a snapshot with the tags Env, Name = worker-7, Name = worker-8
names the record worker-7; a snapshot without tags leaves the name web-1. -/
theorem mergeInstances_name_tag_witness :
    (mergeInstances Sample.fresh Sample.tagged).Name = "worker-7"
    ∧ (mergeInstances Sample.fresh Sample.running).Name = Sample.fresh.Name :=
  ⟨(mergeInstances_name_tag Sample.fresh Sample.tagged).1
      [⟨"Env", "prod"⟩] ⟨"Name", "worker-7"⟩ [⟨"Name", "worker-8"⟩] rfl (by decide) rfl,
    (mergeInstances_name_tag Sample.fresh Sample.running).2 (by decide)⟩

/-- C9: for a record with an empty identifier and no cloud-config path, and a
provider whose creation call succeeds with zero instances, `Get` returns the
error of a failed creation; the only event of the call is the creation request
(no tagging call, no fetch), and the record is unchanged. -/
theorem Get_create_zero_instances (ec2Ref : EC2) (fs : Files) (fuel : Nat)
    (trace : List Event) (inst : Instance)
    (hid : inst.Id = "") (hcc : inst.CloudConfig = "")
    (hzero : ∀ options, ∃ resp, ec2Ref.RunInstances trace options = .ok resp
      ∧ resp.Instances = []) :
    ∃ options, runOptions fs inst = .ok options
      ∧ Get ec2Ref fs fuel trace inst =
          ⟨.ret (.error "Any instance was created!"), inst,
            trace ++ [Event.RunInstances options]⟩
      ∧ (Get ec2Ref fs fuel trace inst).inst.Id = "" := by
  obtain ⟨options, hopt⟩ : ∃ options, runOptions fs inst = .ok options := by
    simp [runOptions, cloudConfigUserData, hcc]
  obtain ⟨resp, hrun, hnone⟩ := hzero options
  have hG : Get ec2Ref fs fuel trace inst =
      ⟨.ret (.error "Any instance was created!"), inst,
        trace ++ [Event.RunInstances options]⟩ := by
    simp [Get, hid, Create, hopt, hrun, hnone]
  exact ⟨options, hopt, hG, by rw [hG]; exact hid⟩

/-- Witness of C9: the record without identifier and the provider that creates
nothing. -/
theorem Get_create_zero_instances_witness :
    Sample.fresh.Id = "" ∧ Sample.fresh.CloudConfig = ""
    ∧ ∃ options, runOptions Sample.noFiles Sample.fresh = .ok options
      ∧ Get Sample.emptyProvider Sample.noFiles 3 [] Sample.fresh =
          ⟨.ret (.error "Any instance was created!"), Sample.fresh,
            [] ++ [Event.RunInstances options]⟩
      ∧ (Get Sample.emptyProvider Sample.noFiles 3 [] Sample.fresh).inst.Id = "" :=
  ⟨rfl, rfl, Get_create_zero_instances Sample.emptyProvider Sample.noFiles 3 [] Sample.fresh
    rfl rfl (fun _ => ⟨⟨[]⟩, rfl, rfl⟩)⟩

/-- C10: when the record's state name equals the target state at entry,
`WaitUntilState` returns success at its first check: no sleep, no fetch, and
the record is unchanged. One iteration of fuel is enough. -/
theorem WaitUntilState_already (ec2Ref : EC2) (fuel : Nat) (trace : List Event)
    (inst : Instance) (state : String) (h : inst.Instance.State.Name = state) :
    WaitUntilState ec2Ref (fuel + 1) trace inst state = ⟨.ret (.ok ()), inst, trace⟩ := by
  simp [WaitUntilState, h]

/-- Witness of C10: a record already in state "running". -/
theorem WaitUntilState_already_witness :
    Sample.settled.Instance.State.Name = "running"
    ∧ WaitUntilState Sample.provider (0 + 1) [] Sample.settled "running"
        = ⟨.ret (.ok ()), Sample.settled, []⟩ :=
  ⟨rfl, WaitUntilState_already Sample.provider 0 [] Sample.settled "running" rfl⟩

end CloudMachine
